import Mathlib

/-!
Shallow embedding of `src/get_pointing_table.py` (repository `LM-SAL/backup_files`).

The script partitions a time span into month-sized chunks
(`_build_time_ranges`), queries a remote JSOC archive once per chunk
(`_query_range` / inline queries), and writes the concatenated results to a
single CSV file (`get_and_save_pointing_table`), either sequentially or with a
thread pool whose results are gathered into an index-addressed slot array.

Modelling decisions:
* `pd.Timestamp` is modelled as a calendar instant `(month, day, nsec)` where
  `month` is an absolute month index (`year * 12 + monthOfYear`), `day` is the
  zero-based day within that month and `nsec` the time of day; comparison is
  lexicographic, matching the linear order on instants.
* `pd.DateOffset(months=m)` shifts the month index by `m` and clamps the day
  to the target month's length, as pandas does.
* The `while` loop of `_build_time_ranges` is embedded with explicit fuel;
  `none` means the loop has not terminated within the given fuel, so
  "`none` for every fuel" is non-termination.
* The `drms.Client().query` call is an oracle parameter returning either a
  table or a raised client-library exception (`RemoteErr`, a distinct
  exception class from the script's own `ValueError`/`OSError`).
* The value of a row's `T_START` column is abstracted as an integer sort key.
* The output file is a list of CSV lines (one header constructor, one data
  constructor) together with a flag recording whether the run opened
  (truncated) the file; thread-pool completion order is an explicit
  permutation parameter.
-/

/-- An instant in time: absolute month index (`year * 12 + monthOfYear`),
zero-based day inside that month, and nanoseconds within the day. -/
structure Timestamp where
  month : Int
  day : Nat
  nsec : Nat
deriving DecidableEq, Repr

/-- Whether an (astronomical-numbered) year is a Gregorian leap year. -/
def isLeapYear (y : Int) : Bool :=
  y % 4 == 0 && (y % 100 != 0 || y % 400 == 0)

/-- Number of days in the month with absolute index `am`. -/
def daysInMonth (am : Int) : Nat :=
  if am % 12 == 1 then (if isLeapYear (Int.fdiv am 12) then 29 else 28)
  else if am % 12 == 3 || am % 12 == 5 || am % 12 == 8 || am % 12 == 10 then 30
  else 31

/-- A `Timestamp` is well-formed when its day exists in its month. -/
def Timestamp.valid (t : Timestamp) : Prop :=
  t.day < daysInMonth t.month

instance (t : Timestamp) : Decidable t.valid := by
  unfold Timestamp.valid; infer_instance

/-- Strict comparison of instants (lexicographic on month, day, time). -/
def Timestamp.lt (a b : Timestamp) : Prop :=
  a.month < b.month ∨
    (a.month = b.month ∧ (a.day < b.day ∨ (a.day = b.day ∧ a.nsec < b.nsec)))

instance (a b : Timestamp) : Decidable (Timestamp.lt a b) := by
  unfold Timestamp.lt; infer_instance

/-- Non-strict comparison of instants. -/
def Timestamp.le (a b : Timestamp) : Prop :=
  Timestamp.lt a b ∨ a = b

instance (a b : Timestamp) : Decidable (Timestamp.le a b) := by
  unfold Timestamp.le; infer_instance

/-- The pandas `ts + pd.DateOffset(months=m)`: shift the month index, keep
the time of day, clamp the day-of-month to the target month's length. -/
def Timestamp.addMonths (t : Timestamp) (m : Int) : Timestamp :=
  { month := t.month + m
    day := min t.day (daysInMonth (t.month + m) - 1)
    nsec := t.nsec }

/-- Python's `min(a, b)` on two timestamps: returns `a` unless `b < a`. -/
def tmin (a b : Timestamp) : Timestamp :=
  if Timestamp.lt b a then b else a

/-- The `while cur < end_date` loop of `_build_time_ranges`
(src/get_pointing_table.py lines 19-25), with explicit fuel: `none` means the
loop did not finish within `fuel` iterations. -/
def _build_time_ranges (fuel : Nat) (start_date end_date : Timestamp)
    (months_per_chunk : Int) : Option (List (Timestamp × Timestamp)) :=
  match fuel with
  | 0 => if Timestamp.lt start_date end_date then none else some []
  | Nat.succ f =>
    if Timestamp.lt start_date end_date then
      let nxt := tmin (start_date.addMonths months_per_chunk) end_date
      match _build_time_ranges f nxt end_date months_per_chunk with
      | none => none
      | some rest => some ((start_date, nxt) :: rest)
    else some []

/-- The hard-coded global start `pd.Timestamp("2010-05-13T00:00:00Z")`:
May 2010 (absolute month `2010 * 12 + 4`), 13th day (zero-based 12), midnight. -/
def START_DATE : Timestamp := { month := 24124, day := 12, nsec := 0 }





/-- The nine AIA wavelength bands (src/get_pointing_table.py line 9). -/
def WAVELENGTHS : List String :=
  ["094", "171", "193", "211", "304", "335", "1600", "1700", "4500"]

/-- The requested field list (src/get_pointing_table.py lines 10-12):
`["T_START", "T_STOP"]` followed by the comprehension
`A_{wl}_{suffix}` over wavelengths and suffixes `X0, Y0, IMSCALE, INSTROT`. -/
def NEEDED_KEYS : List String :=
  ["T_START", "T_STOP"] ++
    WAVELENGTHS.flatMap (fun wl =>
      ["X0", "Y0", "IMSCALE", "INSTROT"].map (fun suffix => "A_" ++ wl ++ "_" ++ suffix))

/-- One row of a query result. The value of its `T_START` column is
abstracted as an integer sort key `tstart`; `fields` is the rest of the
row's rendered cell data. -/
structure Row where
  tstart : Int
  fields : List String
deriving DecidableEq, Repr

/-- A pandas `DataFrame`: column names and rows. -/
structure DataFrame where
  columns : List String
  rows : List Row
deriving DecidableEq, Repr

/-- Row comparison by the `T_START` column. -/
def rowLe (a b : Row) : Prop := a.tstart ≤ b.tstart

instance (a b : Row) : Decidable (rowLe a b) := by
  unfold rowLe; infer_instance

instance : IsTotal Row rowLe := ⟨fun a b => Int.le_total a.tstart b.tstart⟩

instance : IsTrans Row rowLe := ⟨fun _ _ _ h h' => Int.le_trans h h'⟩

/-- The pandas `df.sort_values("T_START")`: sort the rows ascending by the
`T_START` column, keeping the columns. -/
def DataFrame.sort_values (df : DataFrame) : DataFrame :=
  { columns := df.columns, rows := List.insertionSort rowLe df.rows }

/-- One line of the output CSV file: either the header row or a data row. -/
inductive CsvLine where
  | header (columns : List String)
  | data (row : Row)
deriving DecidableEq, Repr

/-- The pandas `df.to_csv(f, index=False, header=h)` appended to the open
file: an optional header line followed by the data rows. -/
def DataFrame.to_csv (df : DataFrame) (header : Bool) : List CsvLine :=
  (if header then [CsvLine.header df.columns] else []) ++ df.rows.map CsvLine.data

/-- An exception raised by the `drms` client library (its own exception
classes, distinct from the built-in `ValueError` and `OSError`). -/
structure RemoteErr where
  info : String
deriving DecidableEq, Repr

/-- A Python exception as this script can observe it: the script's own
`ValueError` (empty result), an exception propagating out of the remote
client, or the wrapping `OSError` raised `from` its cause. -/
inductive PyExc where
  | valueError (msg : String)
  | remote (err : RemoteErr)
  | osError (msg : String) (cause : PyExc)
deriving DecidableEq, Repr

/-- Python's `str(e)` for the exceptions above. -/
def PyExc.message : PyExc → String
  | .valueError msg => msg
  | .remote err => err.info
  | .osError msg _ => msg

/-- The remote archive (`drms.Client().query(rec, key=keys)`) as an oracle:
given the queried time range and key list it either returns a table or
raises a client-library exception. The record-set string `rec` is a
rendering of the range, so the oracle is indexed by the range itself. -/
def Oracle : Type :=
  (Timestamp × Timestamp) → List String → Except RemoteErr DataFrame

/-- Rendering of a timestamp used inside error messages. -/
def Timestamp.render (t : Timestamp) : String :=
  toString t.month ++ "m/" ++ toString t.day ++ "d/" ++ toString t.nsec ++ "ns"

/-- The message of the `ValueError` raised on an empty query result
(src/get_pointing_table.py lines 33 and 69). -/
def emptyMsg (start finish : Timestamp) : String :=
  "No data returned for time range " ++ start.render ++ " to " ++ finish.render

/-- The helper `_query_range` (src/get_pointing_table.py lines 28-35): query
the oracle; a raised client exception propagates; an empty table raises
`ValueError`; otherwise the table is sorted by `T_START`. -/
def _query_range (oracle : Oracle) (start finish : Timestamp) (keys : List String) :
    Except PyExc DataFrame :=
  match oracle (start, finish) keys with
  | Except.error e => Except.error (PyExc.remote e)
  | Except.ok df =>
    if df.rows.isEmpty then Except.error (PyExc.valueError (emptyMsg start finish))
    else Except.ok df.sort_values

/-- The sequential branch (src/get_pointing_table.py lines 62-73): for each
range in order, query, raise `ValueError` if empty, sort, append to the open
file (header only on the first write). Returns the lines written before any
exception, and the exception if one was raised. -/
def seqWriteLoop (oracle : Oracle) :
    List (Timestamp × Timestamp) → Bool → List CsvLine × Option PyExc
  | [], _ => ([], none)
  | (start, finish) :: rest, wrote_header =>
    match oracle (start, finish) NEEDED_KEYS with
    | Except.error e => ([], some (PyExc.remote e))
    | Except.ok df =>
      if df.rows.isEmpty then ([], some (PyExc.valueError (emptyMsg start finish)))
      else
        let out := seqWriteLoop oracle rest true
        (df.sort_values.to_csv (!wrote_header) ++ out.1, out.2)

/-- The empty table (used only as the out-of-range default of an indexed
read that, under the stated hypotheses, never goes out of range). -/
def EMPTY_DF : DataFrame := { columns := [], rows := [] }

/-- The `as_completed` collection loop of the parallel branch
(src/get_pointing_table.py lines 80-82): walk the futures in completion
order, storing each `fut.result()` into its index's slot; the first future
whose `result()` re-raises aborts the loop with that exception. -/
def runCollection (outcomes : List (Except PyExc DataFrame)) :
    List Nat → List (Option DataFrame) → Except PyExc (List (Option DataFrame))
  | [], results => Except.ok results
  | i :: order, results =>
    match outcomes.getD i (Except.ok EMPTY_DF) with
    | Except.error e => Except.error e
    | Except.ok df => runCollection outcomes order (results.set i (some df))

/-- The write loop of the parallel branch (src/get_pointing_table.py lines
83-88): iterate the slots in partition order, skipping missing or empty
slots, appending each table with a header only on the first write. -/
def writeSlots : List (Option DataFrame) → Bool → List CsvLine
  | [], _ => []
  | none :: rest, wrote_header => writeSlots rest wrote_header
  | some df :: rest, wrote_header =>
    if df.rows.isEmpty then writeSlots rest wrote_header
    else df.to_csv (!wrote_header) ++ writeSlots rest true

/-- The wrapping at the orchestration boundary (src/get_pointing_table.py
lines 89-91): `raise OSError(msg) from e` with the cause's message inside. -/
def wrapOSError (e : PyExc) : PyExc :=
  PyExc.osError ("Unable to create the JSOC table.\nError message: " ++ e.message) e

/-- The observable outcome of one run of `get_and_save_pointing_table`:
whether the run opened (hence truncated) the output file, the lines it
wrote, and the exception it raised, if any. -/
structure RunResult where
  fileOpened : Bool
  fileLines : List CsvLine
  error : Option PyExc
deriving DecidableEq, Repr

/-- The whole of `get_and_save_pointing_table` (src/get_pointing_table.py
lines 38-91), parameterised by the oracle, the injectable end boundary
(`pd.Timestamp.now(tz=utc)` in the source), the completion order of the
thread-pool futures, and loop fuel; `none` means the partition loop never
terminated. -/
def get_and_save_pointing_table (oracle : Oracle) (end_date : Timestamp)
    (months_per_chunk : Int) (workers : Int) (order : List Nat) (fuel : Nat) :
    Option RunResult :=
  match _build_time_ranges fuel START_DATE end_date months_per_chunk with
  | none => none
  | some time_ranges =>
    if workers ≤ 1 then
      some { fileOpened := true
             fileLines := (seqWriteLoop oracle time_ranges false).1
             error := (seqWriteLoop oracle time_ranges false).2.map wrapOSError }
    else
      match runCollection
          (time_ranges.map (fun r => _query_range oracle r.1 r.2 NEEDED_KEYS))
          order (List.replicate time_ranges.length none) with
      | Except.error e =>
        some { fileOpened := false, fileLines := [], error := some (wrapOSError e) }
      | Except.ok results =>
        some { fileOpened := true, fileLines := writeSlots results false, error := none }


/-- The loop invariant of `_build_time_ranges`: each produced window starts
where the previous one ended, is non-empty, and ends no later than the
global end; the list stops only once the global end is reached. -/
def GoodChunks : Timestamp → Timestamp → List (Timestamp × Timestamp) → Prop
  | cur, e, [] => ¬ Timestamp.lt cur e
  | cur, e, w :: rest =>
    w.1 = cur ∧ Timestamp.lt w.1 w.2 ∧ Timestamp.le w.2 e ∧ GoodChunks w.2 e rest

/-- The partition properties claimed of `_build_time_ranges`: a non-empty
ordered list of non-empty half-open windows with strictly increasing starts,
contiguous (each window's end is the next window's start), non-overlapping,
whose union is exactly the half-open span from `start` to `finish`. -/
def PartitionSpec (start finish : Timestamp)
    (rs : List (Timestamp × Timestamp)) : Prop :=
  rs ≠ [] ∧
  (∀ w ∈ rs, Timestamp.lt w.1 w.2) ∧
  rs.Pairwise (fun w w' => Timestamp.lt w.1 w'.1) ∧
  rs.Chain' (fun w w' => w.2 = w'.1) ∧
  rs.Pairwise (fun w w' => Timestamp.le w.2 w'.1) ∧
  (∀ t, (∃ w ∈ rs, Timestamp.le w.1 t ∧ Timestamp.lt t w.2) ↔
    (Timestamp.le start t ∧ Timestamp.lt t finish))

/-- A window's query succeeds with at least one row. -/
def QueryOk (oracle : Oracle) (r : Timestamp × Timestamp) : Prop :=
  ∃ df, oracle r NEEDED_KEYS = Except.ok df ∧ df.rows ≠ []

/-- The sorted table `_query_range` hands back for a window (the empty table
if the query did not succeed). -/
def queryDf (oracle : Oracle) (r : Timestamp × Timestamp) : DataFrame :=
  match _query_range oracle r.1 r.2 NEEDED_KEYS with
  | Except.ok df => df
  | Except.error _ => EMPTY_DF

/-- In-order concatenation of per-chunk CSV blocks, the header going only to
the first block written. -/
def catChunks : List DataFrame → Bool → List CsvLine
  | [], _ => []
  | df :: rest, wrote_header => df.to_csv (!wrote_header) ++ catChunks rest true

/-- The slot a completed future fills for a query outcome. -/
def slotOf : Except PyExc DataFrame → Option DataFrame
  | Except.ok df => some df
  | Except.error _ => none

/-- Whether a CSV line is the header line. -/
def isHeaderLine : CsvLine → Bool
  | CsvLine.header _ => true
  | CsvLine.data _ => false

def E0 : Timestamp := { month := 24125, day := 0, nsec := 0 }

def E_PAST : Timestamp := { month := 24000, day := 0, nsec := 0 }

def RS0 : List (Timestamp × Timestamp) := [(START_DATE, E0)]

def goodOracle : Oracle := fun _ _ =>
  Except.ok { columns := NEEDED_KEYS
              rows := [{ tstart := 5, fields := ["b"] }, { tstart := 3, fields := ["a"] }] }

def failOracle : Oracle := fun _ _ => Except.error { info := "boom" }

def emptyOracle : Oracle := fun _ _ => Except.ok { columns := NEEDED_KEYS, rows := [] }

def GOOD_RES : RunResult :=
  { fileOpened := true
    fileLines := [CsvLine.header NEEDED_KEYS,
      CsvLine.data { tstart := 3, fields := ["a"] },
      CsvLine.data { tstart := 5, fields := ["b"] }]
    error := none }

def SEQFAIL_RES : RunResult :=
  { fileOpened := true
    fileLines := []
    error := some (wrapOSError (PyExc.remote { info := "boom" })) }

def PARFAIL_RES : RunResult :=
  { fileOpened := false
    fileLines := []
    error := some (wrapOSError (PyExc.remote { info := "boom" })) }

theorem Timestamp.lt_irrefl (a : Timestamp) : ¬ Timestamp.lt a a := by
  rcases a with ⟨am, ad, an⟩
  simp [Timestamp.lt]

theorem Timestamp.lt_trans {a b c : Timestamp} :
    Timestamp.lt a b → Timestamp.lt b c → Timestamp.lt a c := by
  rcases a with ⟨am, ad, an⟩; rcases b with ⟨bm, bd, bn⟩; rcases c with ⟨cm, cd, cn⟩
  simp only [Timestamp.lt]
  omega

theorem Timestamp.le_refl (a : Timestamp) : Timestamp.le a a :=
  Or.inr rfl

theorem Timestamp.le_of_lt {a b : Timestamp} (h : Timestamp.lt a b) : Timestamp.le a b :=
  Or.inl h

theorem Timestamp.lt_of_le_of_lt {a b c : Timestamp} :
    Timestamp.le a b → Timestamp.lt b c → Timestamp.lt a c := by
  rintro (h | rfl) h' <;> [exact Timestamp.lt_trans h h'; exact h']

theorem Timestamp.lt_of_lt_of_le {a b c : Timestamp} :
    Timestamp.lt a b → Timestamp.le b c → Timestamp.lt a c := by
  rintro h (h' | rfl) <;> [exact Timestamp.lt_trans h h'; exact h]

theorem Timestamp.le_trans {a b c : Timestamp} :
    Timestamp.le a b → Timestamp.le b c → Timestamp.le a c := by
  rintro (h | rfl) h'
  · exact Timestamp.le_of_lt (Timestamp.lt_of_lt_of_le h h')
  · exact h'

theorem Timestamp.le_of_not_lt {a b : Timestamp} (h : ¬ Timestamp.lt a b) :
    Timestamp.le b a := by
  rcases a with ⟨am, ad, an⟩; rcases b with ⟨bm, bd, bn⟩
  simp only [Timestamp.lt, Timestamp.le, Timestamp.mk.injEq] at *
  omega

theorem Timestamp.not_lt_of_le {a b : Timestamp} (h : Timestamp.le a b) :
    ¬ Timestamp.lt b a := by
  rcases a with ⟨am, ad, an⟩; rcases b with ⟨bm, bd, bn⟩
  simp only [Timestamp.lt, Timestamp.le, Timestamp.mk.injEq] at *
  omega

theorem daysInMonth_pos (am : Int) : 1 ≤ daysInMonth am := by
  unfold daysInMonth
  split
  · split <;> omega
  · split <;> omega

theorem Timestamp.addMonths_valid (t : Timestamp) (m : Int) :
    (t.addMonths m).valid := by
  have h := daysInMonth_pos (t.month + m)
  simp only [Timestamp.addMonths, Timestamp.valid]
  omega

theorem Timestamp.addMonths_zero {t : Timestamp} (h : t.valid) :
    t.addMonths 0 = t := by
  rcases t with ⟨mo, d, n⟩
  simp only [Timestamp.valid] at h
  have hd : min d (daysInMonth mo - 1) = d := by omega
  simp only [Timestamp.addMonths, add_zero, hd]

theorem Timestamp.lt_addMonths {t : Timestamp} {m : Int} (hm : 1 ≤ m) :
    Timestamp.lt t (t.addMonths m) := by
  exact Or.inl (by simp only [Timestamp.addMonths]; omega)

theorem Timestamp.addMonths_le_of_nonpos {t : Timestamp} {m : Int}
    (hv : t.valid) (hm : m ≤ 0) : Timestamp.le (t.addMonths m) t := by
  rcases lt_or_eq_of_le hm with h | h
  · exact Timestamp.le_of_lt (Or.inl (by simp only [Timestamp.addMonths]; omega))
  · rw [h, Timestamp.addMonths_zero hv]
    exact Timestamp.le_refl t

theorem build_of_not_lt {s e : Timestamp} {m : Int} (fuel : Nat)
    (h : ¬ Timestamp.lt s e) : _build_time_ranges fuel s e m = some [] := by
  cases fuel <;> simp [_build_time_ranges, h]

theorem build_succ_of_lt {s e : Timestamp} {m : Int} (f : Nat)
    (h : Timestamp.lt s e) :
    _build_time_ranges (f + 1) s e m =
      match _build_time_ranges f (tmin (s.addMonths m) e) e m with
      | none => none
      | some rest => some ((s, tmin (s.addMonths m) e) :: rest) := by
  simp [_build_time_ranges, h]

theorem build_fuel_mono {m : Int} :
    ∀ {f f' : Nat} {s e : Timestamp} {rs : List (Timestamp × Timestamp)},
      f ≤ f' → _build_time_ranges f s e m = some rs →
      _build_time_ranges f' s e m = some rs := by
  intro f
  induction f with
  | zero =>
    intro f' s e rs _ h0
    by_cases hlt : Timestamp.lt s e
    · simp [_build_time_ranges, hlt] at h0
    · simp [_build_time_ranges, hlt] at h0
      rw [build_of_not_lt f' hlt, h0]
  | succ f ih =>
    intro f' s e rs hle h0
    rcases Nat.exists_eq_add_of_le hle with ⟨k, rfl⟩
    by_cases hlt : Timestamp.lt s e
    · rw [build_succ_of_lt f hlt] at h0
      have heq : f + 1 + k = f + k + 1 := by omega
      rw [heq, build_succ_of_lt (f + k) hlt]
      rcases hrec : _build_time_ranges f (tmin (s.addMonths m) e) e m with _ | rest
      · rw [hrec] at h0; simp at h0
      · rw [hrec] at h0
        rw [ih (Nat.le_add_right f k) hrec]
        exact h0
    · rw [build_of_not_lt _ hlt] at h0
      rw [build_of_not_lt _ hlt, h0]

theorem build_unique {m : Int} {f f' : Nat} {s e : Timestamp}
    {rs rs' : List (Timestamp × Timestamp)}
    (h : _build_time_ranges f s e m = some rs)
    (h' : _build_time_ranges f' s e m = some rs') : rs = rs' := by
  have h1 := build_fuel_mono (Nat.le_max_left f f') h
  have h2 := build_fuel_mono (Nat.le_max_right f f') h'
  rw [h1] at h2
  exact (Option.some.injEq _ _).mp h2

theorem tmin_le_right (a b : Timestamp) : Timestamp.le (tmin a b) b := by
  unfold tmin
  split
  · exact Timestamp.le_refl b
  · exact Timestamp.le_of_not_lt (by assumption)

theorem lt_tmin_of_lt {s a b : Timestamp} (ha : Timestamp.lt s a)
    (hb : Timestamp.lt s b) : Timestamp.lt s (tmin a b) := by
  unfold tmin
  split <;> assumption

theorem build_terminates {m : Int} (hm : 1 ≤ m) :
    ∀ (fuel : Nat) (s e : Timestamp), (e.month - s.month).toNat < fuel →
      ∃ rs, _build_time_ranges fuel s e m = some rs := by
  intro fuel
  induction fuel with
  | zero => intro s e h; omega
  | succ f ih =>
    intro s e hfuel
    by_cases hlt : Timestamp.lt s e
    · by_cases hend : Timestamp.lt e (s.addMonths m)
      · refine ⟨[(s, e)], ?_⟩
        rw [build_succ_of_lt f hlt]
        have htm : tmin (s.addMonths m) e = e := by unfold tmin; rw [if_pos hend]
        rw [htm, build_of_not_lt f (Timestamp.lt_irrefl e)]
      · have htm : tmin (s.addMonths m) e = s.addMonths m := by
          unfold tmin; rw [if_neg hend]
        have hmono : (s.addMonths m).month ≤ e.month := by
          rcases s with ⟨sm, sd, sn⟩; rcases e with ⟨em, ed, en⟩
          simp only [Timestamp.lt, Timestamp.addMonths] at hend ⊢
          omega
        have hmeasure : (e.month - (s.addMonths m).month).toNat < f := by
          simp only [Timestamp.addMonths] at hmono ⊢
          omega
        rcases ih (s.addMonths m) e hmeasure with ⟨rest, hrest⟩
        refine ⟨(s, s.addMonths m) :: rest, ?_⟩
        rw [build_succ_of_lt f hlt, htm, hrest]
    · exact ⟨[], build_of_not_lt _ hlt⟩

theorem build_good {m : Int} (hm : 1 ≤ m) :
    ∀ (fuel : Nat) (s e : Timestamp) (rs : List (Timestamp × Timestamp)),
      _build_time_ranges fuel s e m = some rs → GoodChunks s e rs := by
  intro fuel
  induction fuel with
  | zero =>
    intro s e rs h
    by_cases hlt : Timestamp.lt s e <;> simp [_build_time_ranges, hlt] at h
    subst h; exact hlt
  | succ f ih =>
    intro s e rs h
    by_cases hlt : Timestamp.lt s e
    · rw [build_succ_of_lt f hlt] at h
      rcases hrec : _build_time_ranges f (tmin (s.addMonths m) e) e m with _ | rest
      · rw [hrec] at h; simp at h
      · rw [hrec] at h
        simp only [Option.some.injEq] at h
        subst h
        refine ⟨rfl, ?_, tmin_le_right _ _, ih _ _ _ hrec⟩
        exact lt_tmin_of_lt (Timestamp.lt_addMonths hm) hlt
    · rw [build_of_not_lt _ hlt] at h
      simp only [Option.some.injEq] at h
      subst h; exact hlt

theorem good_windows_lt {e : Timestamp} :
    ∀ {cur : Timestamp} {rs : List (Timestamp × Timestamp)}, GoodChunks cur e rs →
      ∀ w ∈ rs, Timestamp.lt w.1 w.2 := by
  intro cur rs
  induction rs generalizing cur with
  | nil => intro _ w hw; simp at hw
  | cons a rest ih =>
    rintro ⟨_, hab, _, hrest⟩ w hw
    rcases List.mem_cons.mp hw with rfl | hw
    · exact hab
    · exact ih hrest w hw

theorem good_starts_ge {e : Timestamp} :
    ∀ {cur : Timestamp} {rs : List (Timestamp × Timestamp)}, GoodChunks cur e rs →
      ∀ w ∈ rs, Timestamp.le cur w.1 := by
  intro cur rs
  induction rs generalizing cur with
  | nil => intro _ w hw; simp at hw
  | cons a rest ih =>
    rintro ⟨rfl, hab, _, hrest⟩ w hw
    rcases List.mem_cons.mp hw with rfl | hw
    · exact Timestamp.le_refl _
    · exact Timestamp.le_trans (Timestamp.le_of_lt hab) (ih hrest w hw)

theorem good_starts_increasing {e : Timestamp} :
    ∀ {cur : Timestamp} {rs : List (Timestamp × Timestamp)}, GoodChunks cur e rs →
      rs.Pairwise (fun w w' => Timestamp.lt w.1 w'.1) := by
  intro cur rs
  induction rs generalizing cur with
  | nil => intro _; exact List.Pairwise.nil
  | cons a rest ih =>
    rintro ⟨rfl, hab, _, hrest⟩
    refine List.Pairwise.cons ?_ (ih hrest)
    intro w hw
    exact Timestamp.lt_of_lt_of_le hab (good_starts_ge hrest w hw)

theorem good_nonoverlapping {e : Timestamp} :
    ∀ {cur : Timestamp} {rs : List (Timestamp × Timestamp)}, GoodChunks cur e rs →
      rs.Pairwise (fun w w' => Timestamp.le w.2 w'.1) := by
  intro cur rs
  induction rs generalizing cur with
  | nil => intro _; exact List.Pairwise.nil
  | cons a rest ih =>
    rintro ⟨rfl, _, _, hrest⟩
    exact List.Pairwise.cons (fun w hw => good_starts_ge hrest w hw) (ih hrest)

theorem good_contiguous {e : Timestamp} :
    ∀ {cur : Timestamp} {rs : List (Timestamp × Timestamp)}, GoodChunks cur e rs →
      rs.Chain' (fun w w' => w.2 = w'.1) := by
  intro cur rs
  induction rs generalizing cur with
  | nil => intro _; exact List.chain'_nil
  | cons a rest ih =>
    rintro ⟨rfl, _, _, hrest⟩
    rcases rest with _ | ⟨b, rest'⟩
    · exact List.chain'_singleton a
    · have hb : b.1 = a.2 := hrest.1
      exact List.Chain'.cons hb.symm (ih hrest)

theorem good_union {e : Timestamp} :
    ∀ {cur : Timestamp} {rs : List (Timestamp × Timestamp)}, GoodChunks cur e rs →
      ∀ t, (∃ w ∈ rs, Timestamp.le w.1 t ∧ Timestamp.lt t w.2) ↔
        (Timestamp.le cur t ∧ Timestamp.lt t e) := by
  intro cur rs
  induction rs generalizing cur with
  | nil =>
    intro hg t
    constructor
    · rintro ⟨w, hw, -⟩; simp at hw
    · rintro ⟨hct, hte⟩
      exact absurd (Timestamp.lt_of_le_of_lt hct hte) hg
  | cons a rest ih =>
    rintro ⟨rfl, hab, hbe, hrest⟩ t
    constructor
    · rintro ⟨w, hw, hwt, htw⟩
      rcases List.mem_cons.mp hw with rfl | hw
      · exact ⟨hwt, Timestamp.lt_of_lt_of_le htw hbe⟩
      · have := (ih hrest t).mp ⟨w, hw, hwt, htw⟩
        exact ⟨Timestamp.le_trans (Timestamp.le_of_lt hab) this.1, this.2⟩
    · rintro ⟨hct, hte⟩
      by_cases htb : Timestamp.lt t a.2
      · exact ⟨a, List.mem_cons_self a rest, hct, htb⟩
      · have hb : Timestamp.le a.2 t := Timestamp.le_of_not_lt htb
        rcases (ih hrest t).mpr ⟨hb, hte⟩ with ⟨w, hw, h1, h2⟩
        exact ⟨w, List.mem_cons_of_mem a hw, h1, h2⟩

/-- C1: for every start strictly before the end and every positive chunk size
in months, `_build_time_ranges` terminates (with the stated fuel, and every
terminating run returns the same list) on an ordered sequence of half-open
windows with strictly increasing starts, contiguous, non-overlapping, whose
union is exactly the span from start (inclusive) to end (exclusive); if one
chunk covers the whole span the result is exactly the single full-span
window. -/
theorem build_time_ranges_partition (start finish : Timestamp) (m : Int)
    (hlt : Timestamp.lt start finish) (hm : 1 ≤ m) :
    ∃ rs,
      _build_time_ranges ((finish.month - start.month).toNat + 1) start finish m =
        some rs ∧
      (∀ fuel rs', _build_time_ranges fuel start finish m = some rs' → rs' = rs) ∧
      PartitionSpec start finish rs ∧
      (Timestamp.le finish (start.addMonths m) → rs = [(start, finish)]) := by
  rcases build_terminates hm ((finish.month - start.month).toNat + 1) start finish
    (by omega) with ⟨rs, hrs⟩
  have hgood := build_good hm _ start finish rs hrs
  refine ⟨rs, hrs, fun fuel rs' h' => build_unique h' hrs, ⟨?_, good_windows_lt hgood,
    good_starts_increasing hgood, good_contiguous hgood, good_nonoverlapping hgood,
    good_union hgood⟩, ?_⟩
  · rintro rfl
    exact hgood hlt
  · intro hcov
    have htm : tmin (start.addMonths m) finish = finish := by
      by_cases hfa : Timestamp.lt finish (start.addMonths m)
      · unfold tmin; rw [if_pos hfa]
      · rcases hcov with h | h
        · exact absurd h hfa
        · unfold tmin; rw [if_neg hfa]; exact h.symm
    have hone : _build_time_ranges ((finish.month - start.month).toNat + 1)
        start finish m = some [(start, finish)] := by
      rw [build_succ_of_lt _ hlt, htm, build_of_not_lt _ (Timestamp.lt_irrefl finish)]
    rw [hrs] at hone
    exact (Option.some.injEq _ _).mp hone

/-- Witness for C1: the spec's scenario start 2010-05-13, end 2010-07-13
(month index 24126), chunk 12 months, which yields the single full-span
window. -/
theorem build_time_ranges_partition_witness :
    Timestamp.lt START_DATE { month := 24126, day := 12, nsec := 0 } ∧
    (1 : Int) ≤ 12 ∧
    (∃ rs,
      _build_time_ranges
          ((({ month := 24126, day := 12, nsec := 0 } : Timestamp).month -
            START_DATE.month).toNat + 1)
          START_DATE { month := 24126, day := 12, nsec := 0 } 12 = some rs ∧
      (∀ fuel rs',
        _build_time_ranges fuel START_DATE { month := 24126, day := 12, nsec := 0 } 12 =
          some rs' → rs' = rs) ∧
      PartitionSpec START_DATE { month := 24126, day := 12, nsec := 0 } rs ∧
      (Timestamp.le { month := 24126, day := 12, nsec := 0 } (START_DATE.addMonths 12) →
        rs = [(START_DATE, { month := 24126, day := 12, nsec := 0 })])) :=
  ⟨by decide, by norm_num,
    build_time_ranges_partition START_DATE { month := 24126, day := 12, nsec := 0 } 12
      (by decide) (by norm_num)⟩

/-- C2 (divergence of the actual code): for any start strictly before the
end, a non-positive `months_per_chunk` makes the `while` loop of
`_build_time_ranges` run forever — no amount of fuel completes it — instead
of failing with an error as the specification requires. -/
theorem build_time_ranges_diverges_on_nonpos_chunk {finish : Timestamp} {m : Int}
    (hm : m ≤ 0) :
    ∀ (fuel : Nat) (s : Timestamp), s.valid → Timestamp.lt s finish →
      _build_time_ranges fuel s finish m = none := by
  intro fuel
  induction fuel with
  | zero => intro s hv hlt; simp [_build_time_ranges, hlt]
  | succ f ih =>
    intro s hv hlt
    have hle : Timestamp.le (s.addMonths m) s := Timestamp.addMonths_le_of_nonpos hv hm
    have hlt' : Timestamp.lt (s.addMonths m) finish := Timestamp.lt_of_le_of_lt hle hlt
    have hfa : ¬ Timestamp.lt finish (s.addMonths m) :=
      Timestamp.not_lt_of_le (Timestamp.le_of_lt hlt')
    have htm : tmin (s.addMonths m) finish = s.addMonths m := by
      unfold tmin; rw [if_neg hfa]
    rw [build_succ_of_lt f hlt, htm,
      ih (s.addMonths m) (Timestamp.addMonths_valid s m) hlt']

/-- Witness for C2's divergence theorem: chunk size 0 from the hard-coded
start date to June 2010, evaluated at fuel 5. -/
theorem build_time_ranges_diverges_on_nonpos_chunk_witness :
    (0 : Int) ≤ 0 ∧ START_DATE.valid ∧
    Timestamp.lt START_DATE { month := 24125, day := 0, nsec := 0 } ∧
    _build_time_ranges 5 START_DATE { month := 24125, day := 0, nsec := 0 } 0 = none :=
  ⟨by norm_num, by decide, by decide,
    build_time_ranges_diverges_on_nonpos_chunk (by norm_num) 5 START_DATE
      (by decide) (by decide)⟩

theorem query_range_of_ok {oracle : Oracle} {r : Timestamp × Timestamp} {df : DataFrame}
    (h : oracle r NEEDED_KEYS = Except.ok df) (hne : df.rows ≠ []) :
    _query_range oracle r.1 r.2 NEEDED_KEYS = Except.ok df.sort_values := by
  have hr : oracle (r.1, r.2) NEEDED_KEYS = Except.ok df := by
    rw [Prod.mk.eta]; exact h
  have hemp : df.rows.isEmpty = false := by
    rcases hd : df.rows with _ | ⟨a, l⟩
    · exact absurd hd hne
    · rfl
  unfold _query_range
  rw [hr]
  simp [hemp]

theorem query_range_of_error {oracle : Oracle} {r : Timestamp × Timestamp} {e : RemoteErr}
    (h : oracle r NEEDED_KEYS = Except.error e) :
    _query_range oracle r.1 r.2 NEEDED_KEYS = Except.error (PyExc.remote e) := by
  have hr : oracle (r.1, r.2) NEEDED_KEYS = Except.error e := by
    rw [Prod.mk.eta]; exact h
  unfold _query_range
  rw [hr]

theorem query_range_of_empty {oracle : Oracle} {r : Timestamp × Timestamp} {df : DataFrame}
    (h : oracle r NEEDED_KEYS = Except.ok df) (he : df.rows = []) :
    _query_range oracle r.1 r.2 NEEDED_KEYS =
      Except.error (PyExc.valueError (emptyMsg r.1 r.2)) := by
  have hr : oracle (r.1, r.2) NEEDED_KEYS = Except.ok df := by
    rw [Prod.mk.eta]; exact h
  unfold _query_range
  rw [hr]
  simp [he]

theorem query_range_error_of_not_ok {oracle : Oracle} {r : Timestamp × Timestamp}
    (h : ¬ QueryOk oracle r) :
    ∃ exc, _query_range oracle r.1 r.2 NEEDED_KEYS = Except.error exc := by
  rcases ho : oracle r NEEDED_KEYS with e | df
  · exact ⟨PyExc.remote e, query_range_of_error ho⟩
  · rcases hd : df.rows with _ | ⟨a, l⟩
    · exact ⟨PyExc.valueError (emptyMsg r.1 r.2), query_range_of_empty ho hd⟩
    · exact absurd ⟨df, ho, by rw [hd]; simp⟩ h

theorem queryDf_of_ok {oracle : Oracle} {r : Timestamp × Timestamp} {df : DataFrame}
    (h : oracle r NEEDED_KEYS = Except.ok df) (hne : df.rows ≠ []) :
    queryDf oracle r = df.sort_values := by
  unfold queryDf
  rw [query_range_of_ok h hne]

theorem query_range_eq_queryDf {oracle : Oracle} {r : Timestamp × Timestamp}
    (h : QueryOk oracle r) :
    _query_range oracle r.1 r.2 NEEDED_KEYS = Except.ok (queryDf oracle r) := by
  rcases h with ⟨df, hdf, hne⟩
  rw [query_range_of_ok hdf hne, queryDf_of_ok hdf hne]

theorem queryDf_rows_sorted {oracle : Oracle} {r : Timestamp × Timestamp}
    (h : QueryOk oracle r) : List.Sorted rowLe (queryDf oracle r).rows := by
  rcases h with ⟨df, hdf, hne⟩
  rw [queryDf_of_ok hdf hne]
  exact List.sorted_insertionSort rowLe df.rows

theorem queryDf_rows_ne {oracle : Oracle} {r : Timestamp × Timestamp}
    (h : QueryOk oracle r) : (queryDf oracle r).rows ≠ [] := by
  rcases h with ⟨df, hdf, hne⟩
  rw [queryDf_of_ok hdf hne]
  intro hcon
  apply hne
  have hlen := (List.perm_insertionSort rowLe df.rows).length_eq
  rw [show (DataFrame.sort_values df).rows = List.insertionSort rowLe df.rows from rfl] at hcon
  rw [hcon] at hlen
  exact List.length_eq_zero.mp hlen.symm

theorem queryDf_columns {oracle : Oracle} {r : Timestamp × Timestamp} {df : DataFrame}
    (h : oracle r NEEDED_KEYS = Except.ok df) (hne : df.rows ≠ []) :
    (queryDf oracle r).columns = df.columns := by
  rw [queryDf_of_ok h hne]
  rfl

theorem seqWriteLoop_all_ok {oracle : Oracle} :
    ∀ {rs : List (Timestamp × Timestamp)} (wh : Bool),
      (∀ r ∈ rs, QueryOk oracle r) →
      seqWriteLoop oracle rs wh = (catChunks (rs.map (queryDf oracle)) wh, none) := by
  intro rs
  induction rs with
  | nil => intro wh _; rfl
  | cons a rest ih =>
    intro wh hok
    rcases a with ⟨s, f⟩
    rcases hok _ (List.mem_cons_self _ _) with ⟨df, hdf, hne⟩
    have hemp : df.rows.isEmpty = false := by
      rcases hd : df.rows with _ | ⟨x, l⟩
      · exact absurd hd hne
      · rfl
    have hqdf : queryDf oracle (s, f) = df.sort_values := queryDf_of_ok hdf hne
    have hrest := ih true (fun r hr => hok r (List.mem_cons_of_mem _ hr))
    simp only [seqWriteLoop, hdf, hemp, Bool.false_eq_true, if_false, hrest,
      List.map_cons, catChunks, hqdf]

theorem seqWriteLoop_fails {oracle : Oracle} :
    ∀ {rs : List (Timestamp × Timestamp)} (wh : Bool),
      (∃ r ∈ rs, ¬ QueryOk oracle r) →
      ∃ e, (seqWriteLoop oracle rs wh).2 = some e := by
  intro rs
  induction rs with
  | nil => rintro wh ⟨r, hr, -⟩; simp at hr
  | cons a rest ih =>
    rintro wh ⟨r, hr, hbad⟩
    rcases a with ⟨s, f⟩
    rcases ho : oracle (s, f) NEEDED_KEYS with e | df
    · exact ⟨PyExc.remote e, by simp only [seqWriteLoop, ho]⟩
    · rcases hd : df.rows with _ | ⟨x, l⟩
      · refine ⟨PyExc.valueError (emptyMsg s f), ?_⟩
        have hemp : df.rows.isEmpty = true := by rw [hd]; rfl
        simp only [seqWriteLoop, ho, hemp, if_true]
      · have hokhead : QueryOk oracle (s, f) := ⟨df, ho, by rw [hd]; simp⟩
        have hemp : df.rows.isEmpty = false := by rw [hd]; rfl
        have hrmem : r ∈ rest := by
          rcases List.mem_cons.mp hr with rfl | hmem
          · exact absurd hokhead hbad
          · exact hmem
        rcases ih true ⟨r, hrmem, hbad⟩ with ⟨e, he⟩
        refine ⟨e, ?_⟩
        simp only [seqWriteLoop, ho, hemp, Bool.false_eq_true, if_false]
        exact he

theorem seqWriteLoop_none_all_ok {oracle : Oracle} {rs : List (Timestamp × Timestamp)}
    {wh : Bool} (h : (seqWriteLoop oracle rs wh).2 = none) :
    ∀ r ∈ rs, QueryOk oracle r := by
  by_contra hcon
  push_neg at hcon
  rcases hcon with ⟨r, hr, hbad⟩
  rcases seqWriteLoop_fails wh ⟨r, hr, hbad⟩ with ⟨e, he⟩
  rw [h] at he
  exact Option.noConfusion he

theorem runCollection_all_ok {outcomes : List (Except PyExc DataFrame)} :
    ∀ (order : List Nat) (init : List (Option DataFrame)),
      (∀ i ∈ order, i < init.length) →
      (∀ i ∈ order, ∀ e, outcomes.getD i (Except.ok EMPTY_DF) ≠ Except.error e) →
      ∃ res, runCollection outcomes order init = Except.ok res ∧
        res.length = init.length ∧
        (∀ j : Nat, j ∈ order →
          res[j]? = some (slotOf (outcomes.getD j (Except.ok EMPTY_DF)))) ∧
        (∀ j : Nat, j ∉ order → res[j]? = init[j]?) := by
  intro order
  induction order with
  | nil =>
    intro init _ _
    exact ⟨init, rfl, rfl, fun j hj => absurd hj (List.not_mem_nil j), fun _ _ => rfl⟩
  | cons i order ih =>
    intro init hbound hok
    rcases ho : outcomes.getD i (Except.ok EMPTY_DF) with e | df
    · exact absurd ho (hok i (List.mem_cons_self _ _) e)
    · have hilt : i < init.length := hbound i (List.mem_cons_self _ _)
      have hbound' : ∀ j ∈ order, j < (init.set i (some df)).length := by
        intro j hj
        rw [List.length_set]
        exact hbound j (List.mem_cons_of_mem _ hj)
      have hok' : ∀ j ∈ order, ∀ e,
          outcomes.getD j (Except.ok EMPTY_DF) ≠ Except.error e :=
        fun j hj => hok j (List.mem_cons_of_mem _ hj)
      rcases ih (init.set i (some df)) hbound' hok' with ⟨res, hres, hlen, hin, hout⟩
      refine ⟨res, ?_, by rw [hlen, List.length_set], ?_, ?_⟩
      · simp only [runCollection, ho]
        exact hres
      · intro j hj
        rcases List.mem_cons.mp hj with rfl | hj'
        · by_cases hj2 : j ∈ order
          · exact hin j hj2
          · rw [hout j hj2, List.getElem?_set_self hilt, ho]
            rfl
        · exact hin j hj'
      · intro j hj
        have hj1 : j ≠ i := fun hcon => hj (hcon ▸ List.mem_cons_self _ _)
        have hj2 : j ∉ order := fun hcon => hj (List.mem_cons_of_mem _ hcon)
        rw [hout j hj2, List.getElem?_set_ne (Ne.symm hj1)]

theorem runCollection_perm_ok {outcomes : List (Except PyExc DataFrame)}
    {order : List Nat} (hperm : order.Perm (List.range outcomes.length))
    (hok : ∀ o ∈ outcomes, ∀ e, o ≠ Except.error e) :
    runCollection outcomes order (List.replicate outcomes.length none) =
      Except.ok (outcomes.map slotOf) := by
  have hmem : ∀ i : Nat, i ∈ order ↔ i < outcomes.length := by
    intro i
    rw [hperm.mem_iff, List.mem_range]
  have hbound : ∀ i ∈ order,
      i < (List.replicate outcomes.length (none : Option DataFrame)).length := by
    intro i hi
    rw [List.length_replicate]
    exact (hmem i).mp hi
  have hok' : ∀ i ∈ order, ∀ e,
      outcomes.getD i (Except.ok EMPTY_DF) ≠ Except.error e := by
    intro i hi e
    have hilt : i < outcomes.length := (hmem i).mp hi
    rw [List.getD_eq_getElem?_getD, List.getElem?_eq_getElem hilt]
    exact hok _ (List.getElem_mem hilt) e
  rcases runCollection_all_ok order _ hbound hok' with ⟨res, hres, hlen, hin, hout⟩
  rw [hres]
  congr 1
  apply List.ext_getElem?
  intro j
  by_cases hj : j < outcomes.length
  · rw [hin j ((hmem j).mpr hj), List.getElem?_map, List.getElem?_eq_getElem hj,
      List.getD_eq_getElem?_getD, List.getElem?_eq_getElem hj]
    rfl
  · have hj1 : j ∉ order := fun hcon => hj ((hmem j).mp hcon)
    rw [hout j hj1, List.getElem?_map]
    have h1 : (List.replicate outcomes.length (none : Option DataFrame))[j]? = none := by
      apply List.getElem?_eq_none
      rw [List.length_replicate]
      omega
    have h2 : outcomes[j]? = none := List.getElem?_eq_none (by omega)
    rw [h1, h2]
    rfl

theorem runCollection_finds_error {outcomes : List (Except PyExc DataFrame)} :
    ∀ (order : List Nat) (init : List (Option DataFrame)),
      (∃ i ∈ order, ∃ e, outcomes.getD i (Except.ok EMPTY_DF) = Except.error e) →
      ∃ e, runCollection outcomes order init = Except.error e := by
  intro order
  induction order with
  | nil => rintro init ⟨i, hi, -⟩; simp at hi
  | cons i order ih =>
    rintro init ⟨i', hi', e', he'⟩
    rcases ho : outcomes.getD i (Except.ok EMPTY_DF) with e | df
    · exact ⟨e, by simp only [runCollection, ho]⟩
    · have hmem : i' ∈ order := by
        rcases List.mem_cons.mp hi' with rfl | h
        · rw [ho] at he'; exact Except.noConfusion he'
        · exact h
      rcases ih (init.set i (some df)) ⟨i', hmem, e', he'⟩ with ⟨e, he⟩
      refine ⟨e, ?_⟩
      simp only [runCollection, ho]
      exact he

theorem runCollection_ok_no_error {outcomes : List (Except PyExc DataFrame)}
    {order : List Nat} {init : List (Option DataFrame)}
    {res : List (Option DataFrame)}
    (h : runCollection outcomes order init = Except.ok res) :
    ∀ i ∈ order, ∀ e, outcomes.getD i (Except.ok EMPTY_DF) ≠ Except.error e := by
  intro i hi e he
  rcases runCollection_finds_error order init ⟨i, hi, e, he⟩ with ⟨e', he'⟩
  rw [h] at he'
  exact Except.noConfusion he'

theorem runCollection_empty (order : List Nat) :
    runCollection [] order [] = Except.ok [] := by
  induction order with
  | nil => rfl
  | cons i order ih =>
    show runCollection [] (i :: order) [] = Except.ok []
    simp only [runCollection, List.getD]
    exact ih

theorem writeSlots_map_some :
    ∀ (dfs : List DataFrame) (wh : Bool), (∀ df ∈ dfs, df.rows ≠ []) →
      writeSlots (dfs.map some) wh = catChunks dfs wh := by
  intro dfs
  induction dfs with
  | nil => intro wh _; rfl
  | cons df rest ih =>
    intro wh hne
    have hemp : df.rows.isEmpty = false := by
      rcases hd : df.rows with _ | ⟨x, l⟩
      · exact absurd hd (hne df (List.mem_cons_self _ _))
      · rfl
    simp only [List.map_cons, writeSlots, hemp, Bool.false_eq_true, if_false, catChunks,
      ih true (fun d hd => hne d (List.mem_cons_of_mem _ hd))]

theorem run_success_char {oracle : Oracle} {end_date : Timestamp} {m : Int}
    {order : List Nat} {fuel : Nat} {rs : List (Timestamp × Timestamp)}
    (workers : Int)
    (hb : _build_time_ranges fuel START_DATE end_date m = some rs)
    (hperm : order.Perm (List.range rs.length))
    (hok : ∀ r ∈ rs, QueryOk oracle r) :
    get_and_save_pointing_table oracle end_date m workers order fuel =
      some { fileOpened := true
             fileLines := catChunks (rs.map (queryDf oracle)) false
             error := none } := by
  by_cases hw : workers ≤ 1
  · simp only [get_and_save_pointing_table, hb, if_pos hw, seqWriteLoop_all_ok false hok,
      Option.map_none']
  · have hperm' : order.Perm
        (List.range (rs.map (fun r => _query_range oracle r.1 r.2 NEEDED_KEYS)).length) := by
      rw [List.length_map]; exact hperm
    have hok' : ∀ o ∈ rs.map (fun r => _query_range oracle r.1 r.2 NEEDED_KEYS),
        ∀ e, o ≠ Except.error e := by
      intro o hoo e
      rcases List.mem_map.mp hoo with ⟨r, hr, rfl⟩
      rw [query_range_eq_queryDf (hok r hr)]
      exact fun hcon => Except.noConfusion hcon
    have hcoll := runCollection_perm_ok hperm' hok'
    rw [List.length_map] at hcoll
    have hmap : (rs.map (fun r => _query_range oracle r.1 r.2 NEEDED_KEYS)).map slotOf =
        (rs.map (queryDf oracle)).map some := by
      rw [List.map_map, List.map_map]
      apply List.map_congr_left
      intro r hr
      simp only [Function.comp_apply]
      rw [query_range_eq_queryDf (hok r hr)]
      rfl
    have hne : ∀ df ∈ rs.map (queryDf oracle), df.rows ≠ [] := by
      intro df hdf
      rcases List.mem_map.mp hdf with ⟨r, hr, rfl⟩
      exact queryDf_rows_ne (hok r hr)
    simp only [get_and_save_pointing_table, hb, if_neg hw, hcoll, hmap,
      writeSlots_map_some _ _ hne]

theorem run_error_wrapped {oracle : Oracle} {end_date : Timestamp} {m workers : Int}
    {order : List Nat} {fuel : Nat} {res : RunResult} {exc : PyExc}
    (hrun : get_and_save_pointing_table oracle end_date m workers order fuel = some res)
    (herr : res.error = some exc) :
    ∃ cause, exc = wrapOSError cause := by
  unfold get_and_save_pointing_table at hrun
  rcases hbuild : _build_time_ranges fuel START_DATE end_date m with _ | rs
  · rw [hbuild] at hrun
    exact Option.noConfusion hrun
  · rw [hbuild] at hrun
    simp only at hrun
    by_cases hw : workers ≤ 1
    · rw [if_pos hw] at hrun
      have hres := (Option.some.injEq _ _).mp hrun
      rw [← hres] at herr
      simp only at herr
      rcases Option.map_eq_some'.mp herr with ⟨cause, _, hcause⟩
      exact ⟨cause, hcause.symm⟩
    · rw [if_neg hw] at hrun
      rcases hcoll : runCollection
          (rs.map (fun r => _query_range oracle r.1 r.2 NEEDED_KEYS))
          order (List.replicate rs.length none) with e | results
      · rw [hcoll] at hrun
        have hres := (Option.some.injEq _ _).mp hrun
        rw [← hres] at herr
        simp only at herr
        exact ⟨e, ((Option.some.injEq _ _).mp herr).symm⟩
      · rw [hcoll] at hrun
        have hres := (Option.some.injEq _ _).mp hrun
        rw [← hres] at herr
        simp only at herr
        exact Option.noConfusion herr

theorem run_fails {oracle : Oracle} {end_date : Timestamp} {m workers : Int}
    {order : List Nat} {fuel : Nat} {res : RunResult}
    {rs : List (Timestamp × Timestamp)}
    (hb : _build_time_ranges fuel START_DATE end_date m = some rs)
    (hperm : order.Perm (List.range rs.length))
    (hfail : ∃ r ∈ rs, ¬ QueryOk oracle r)
    (hrun : get_and_save_pointing_table oracle end_date m workers order fuel = some res) :
    ∃ exc, res.error = some exc := by
  unfold get_and_save_pointing_table at hrun
  rw [hb] at hrun
  simp only at hrun
  by_cases hw : workers ≤ 1
  · rw [if_pos hw] at hrun
    rcases seqWriteLoop_fails false hfail with ⟨e, he⟩
    have hres := (Option.some.injEq _ _).mp hrun
    rw [← hres]
    exact ⟨wrapOSError e, by simp only [he, Option.map_some']⟩
  · rw [if_neg hw] at hrun
    rcases hfail with ⟨r, hr, hbad⟩
    rcases List.mem_iff_getElem?.mp hr with ⟨j, hj⟩
    have hjlt : j < rs.length := by
      rcases List.getElem?_eq_some_iff.mp hj with ⟨hlt, -⟩
      exact hlt
    rcases query_range_error_of_not_ok hbad with ⟨exc, hexc⟩
    have hout : (rs.map (fun r => _query_range oracle r.1 r.2 NEEDED_KEYS)).getD j
        (Except.ok EMPTY_DF) = Except.error exc := by
      rw [List.getD_eq_getElem?_getD, List.getElem?_map, hj]
      simp only [Option.map_some', Option.getD_some]
      exact hexc
    have hjorder : j ∈ order := by
      rw [hperm.mem_iff, List.mem_range]
      exact hjlt
    rcases runCollection_finds_error order (List.replicate rs.length none)
      ⟨j, hjorder, exc, hout⟩ with ⟨e, he⟩
    rw [he] at hrun
    have hres := (Option.some.injEq _ _).mp hrun
    rw [← hres]
    exact ⟨wrapOSError e, rfl⟩

theorem countP_data_map (rows : List Row) :
    (rows.map CsvLine.data).countP isHeaderLine = 0 := by
  rw [List.countP_eq_zero]
  intro l hl
  rcases List.mem_map.mp hl with ⟨row, -, rfl⟩
  simp [isHeaderLine]

theorem countP_to_csv_false (df : DataFrame) :
    (df.to_csv false).countP isHeaderLine = 0 := by
  have h : df.to_csv false = df.rows.map CsvLine.data := rfl
  rw [h, countP_data_map]

theorem countP_catChunks_true : ∀ dfs : List DataFrame,
    (catChunks dfs true).countP isHeaderLine = 0 := by
  intro dfs
  induction dfs with
  | nil => rfl
  | cons df rest ih =>
    have h1 : catChunks (df :: rest) true = df.to_csv false ++ catChunks rest true := rfl
    rw [h1, List.countP_append, countP_to_csv_false df, ih]

theorem outcomes_error_at {oracle : Oracle} {rs : List (Timestamp × Timestamp)}
    {r : Timestamp × Timestamp} (hr : r ∈ rs) (hbad : ¬ QueryOk oracle r) :
    ∃ j, j < rs.length ∧ ∃ exc,
      (rs.map (fun w => _query_range oracle w.1 w.2 NEEDED_KEYS)).getD j
        (Except.ok EMPTY_DF) = Except.error exc := by
  rcases List.mem_iff_getElem?.mp hr with ⟨j, hj⟩
  have hjlt : j < rs.length := by
    rcases List.getElem?_eq_some_iff.mp hj with ⟨hlt, -⟩
    exact hlt
  rcases query_range_error_of_not_ok hbad with ⟨exc, hexc⟩
  refine ⟨j, hjlt, exc, ?_⟩
  rw [List.getD_eq_getElem?_getD, List.getElem?_map, hj]
  simp only [Option.map_some', Option.getD_some]
  exact hexc

theorem run_success_all_ok {oracle : Oracle} {end_date : Timestamp} {m workers : Int}
    {order : List Nat} {fuel : Nat} {res : RunResult}
    {rs : List (Timestamp × Timestamp)}
    (hb : _build_time_ranges fuel START_DATE end_date m = some rs)
    (hperm : order.Perm (List.range rs.length))
    (hrun : get_and_save_pointing_table oracle end_date m workers order fuel = some res)
    (herr : res.error = none) :
    ∀ r ∈ rs, QueryOk oracle r := by
  by_contra hcon
  push_neg at hcon
  rcases run_fails hb hperm hcon hrun with ⟨exc, hexc⟩
  rw [herr] at hexc
  exact Option.noConfusion hexc

/-- C3: in any successful run (sequential or parallel), the output is the
in-order concatenation of the per-window blocks (window starts strictly
increase along the partition), every block's rows are sorted ascending by
the `T_START` column, and the output does not depend on the order in which
the parallel queries complete. -/
theorem output_rows_ordered {oracle : Oracle} {end_date : Timestamp} {m workers : Int}
    {order : List Nat} {fuel : Nat} {res : RunResult}
    {rs : List (Timestamp × Timestamp)}
    (hm : 1 ≤ m)
    (hb : _build_time_ranges fuel START_DATE end_date m = some rs)
    (hperm : order.Perm (List.range rs.length))
    (hrun : get_and_save_pointing_table oracle end_date m workers order fuel = some res)
    (herr : res.error = none) :
    res.fileLines = catChunks (rs.map (queryDf oracle)) false ∧
    (∀ r ∈ rs, List.Sorted rowLe (queryDf oracle r).rows) ∧
    rs.Pairwise (fun w w' => Timestamp.lt w.1 w'.1) ∧
    (∀ (order' : List Nat) (res' : RunResult), order'.Perm (List.range rs.length) →
      get_and_save_pointing_table oracle end_date m workers order' fuel = some res' →
      res'.fileLines = res.fileLines) := by
  have hok := run_success_all_ok hb hperm hrun herr
  have hchar := run_success_char workers hb hperm hok
  rw [hrun] at hchar
  have hres := (Option.some.injEq _ _).mp hchar
  refine ⟨by rw [hres], fun r hr => queryDf_rows_sorted (hok r hr),
    good_starts_increasing (build_good hm fuel _ _ rs hb), ?_⟩
  intro order' res' hperm' hrun'
  have hchar' := run_success_char workers hb hperm' hok
  rw [hrun'] at hchar'
  have hres' := (Option.some.injEq _ _).mp hchar'
  rw [hres, hres']

/-- C4: if some window's remote query raises, the whole call fails and the
error it raises is a single `OSError` whose message embeds the cause's
message and whose cause is the original exception. -/
theorem run_failure_wrapped {oracle : Oracle} {end_date : Timestamp} {m workers : Int}
    {order : List Nat} {fuel : Nat} {res : RunResult}
    {rs : List (Timestamp × Timestamp)}
    (hb : _build_time_ranges fuel START_DATE end_date m = some rs)
    (hperm : order.Perm (List.range rs.length))
    (hfail : ∃ r ∈ rs, ∃ e, oracle r NEEDED_KEYS = Except.error e)
    (hrun : get_and_save_pointing_table oracle end_date m workers order fuel = some res) :
    ∃ cause, res.error = some (PyExc.osError
      ("Unable to create the JSOC table.\nError message: " ++ cause.message) cause) := by
  have hfail' : ∃ r ∈ rs, ¬ QueryOk oracle r := by
    rcases hfail with ⟨r, hr, e, he⟩
    refine ⟨r, hr, ?_⟩
    rintro ⟨df, hdf, -⟩
    rw [he] at hdf
    exact Except.noConfusion hdf
  rcases run_fails hb hperm hfail' hrun with ⟨exc, hexc⟩
  rcases run_error_wrapped hrun hexc with ⟨cause, rfl⟩
  exact ⟨cause, hexc⟩

/-- C5: an empty query result raises the script's own `ValueError` naming
the window, while a retrieval failure propagates the client library's
exception, a different exception class; every error escaping
`get_and_save_pointing_table` is the `OSError` wrapper with its cause
attached, so the caller can tell the empty-result case apart. -/
theorem empty_result_error_distinct (oracle : Oracle) (start finish : Timestamp) :
    (∀ df, oracle (start, finish) NEEDED_KEYS = Except.ok df → df.rows = [] →
      _query_range oracle start finish NEEDED_KEYS =
        Except.error (PyExc.valueError (emptyMsg start finish))) ∧
    (∀ e, oracle (start, finish) NEEDED_KEYS = Except.error e →
      _query_range oracle start finish NEEDED_KEYS = Except.error (PyExc.remote e)) ∧
    (∀ msg err, PyExc.valueError msg ≠ PyExc.remote err) ∧
    (∀ rest wh df, oracle (start, finish) NEEDED_KEYS = Except.ok df → df.rows = [] →
      seqWriteLoop oracle ((start, finish) :: rest) wh =
        ([], some (PyExc.valueError (emptyMsg start finish)))) ∧
    (∀ end_date m workers order fuel res exc,
      get_and_save_pointing_table oracle end_date m workers order fuel = some res →
      res.error = some exc → ∃ cause, exc = wrapOSError cause) := by
  refine ⟨?_, ?_, ?_, ?_, ?_⟩
  · intro df h he
    exact query_range_of_empty (r := (start, finish)) h he
  · intro e h
    exact query_range_of_error (r := (start, finish)) h
  · intro msg err hcon
    exact PyExc.noConfusion hcon
  · intro rest wh df h he
    have hemp : df.rows.isEmpty = true := by rw [he]; rfl
    simp only [seqWriteLoop, h, hemp, if_true]
  · intro end_date m workers order fuel res exc hrun herr
    exact run_error_wrapped hrun herr

/-- C6: a successful run over a non-empty partition writes exactly one
header line, it is the first line of the file, it carries the columns of the
first chunk's table, and every later chunk contributes only data rows. -/
theorem header_written_once {oracle : Oracle} {end_date : Timestamp} {m workers : Int}
    {order : List Nat} {fuel : Nat} {res : RunResult}
    {r0 : Timestamp × Timestamp} {rs' : List (Timestamp × Timestamp)}
    (hb : _build_time_ranges fuel START_DATE end_date m = some (r0 :: rs'))
    (hperm : order.Perm (List.range (r0 :: rs').length))
    (hrun : get_and_save_pointing_table oracle end_date m workers order fuel = some res)
    (herr : res.error = none) :
    ∃ rest, res.fileLines = CsvLine.header (queryDf oracle r0).columns :: rest ∧
      rest.countP isHeaderLine = 0 ∧
      res.fileLines.countP isHeaderLine = 1 := by
  have hok := run_success_all_ok hb hperm hrun herr
  have hchar := run_success_char workers hb hperm hok
  rw [hrun] at hchar
  have hres := (Option.some.injEq _ _).mp hchar
  have hL : catChunks ((r0 :: rs').map (queryDf oracle)) false =
      CsvLine.header (queryDf oracle r0).columns ::
        ((queryDf oracle r0).rows.map CsvLine.data ++
          catChunks (rs'.map (queryDf oracle)) true) := rfl
  have hrest : ((queryDf oracle r0).rows.map CsvLine.data ++
      catChunks (rs'.map (queryDf oracle)) true).countP isHeaderLine = 0 := by
    rw [List.countP_append, countP_data_map, countP_catChunks_true]
  refine ⟨(queryDf oracle r0).rows.map CsvLine.data ++
    catChunks (rs'.map (queryDf oracle)) true, ?_, hrest, ?_⟩
  · rw [hres]
    exact hL
  · rw [hres]
    show (catChunks ((r0 :: rs').map (queryDf oracle)) false).countP isHeaderLine = 1
    rw [hL, List.countP_cons_of_pos _ _ (by rfl), hrest]

/-- C7: in the parallel strategy, if some window's query raises, the
collection phase aborts before the output file is opened: the run fails
with the wrapped error, never opens (hence never truncates) the file, and
writes nothing. -/
theorem parallel_failure_no_write {oracle : Oracle} {end_date : Timestamp}
    {m workers : Int} {order : List Nat} {fuel : Nat} {res : RunResult}
    {rs : List (Timestamp × Timestamp)}
    (hb : _build_time_ranges fuel START_DATE end_date m = some rs)
    (hperm : order.Perm (List.range rs.length))
    (hw : 1 < workers)
    (hfail : ∃ r ∈ rs, ∃ e, oracle r NEEDED_KEYS = Except.error e)
    (hrun : get_and_save_pointing_table oracle end_date m workers order fuel = some res) :
    res.fileOpened = false ∧ res.fileLines = [] ∧
    ∃ cause, res.error = some (wrapOSError cause) := by
  unfold get_and_save_pointing_table at hrun
  rw [hb] at hrun
  simp only at hrun
  have hw' : ¬ workers ≤ 1 := by omega
  rw [if_neg hw'] at hrun
  rcases hfail with ⟨r, hr, e, he⟩
  have hbad : ¬ QueryOk oracle r := by
    rintro ⟨df, hdf, -⟩
    rw [he] at hdf
    exact Except.noConfusion hdf
  rcases outcomes_error_at hr hbad with ⟨j, hjlt, exc, hout⟩
  have hjorder : j ∈ order := by
    rw [hperm.mem_iff, List.mem_range]
    exact hjlt
  rcases runCollection_finds_error order (List.replicate rs.length none)
    ⟨j, hjorder, exc, hout⟩ with ⟨e', he'⟩
  rw [he'] at hrun
  have hres := (Option.some.injEq _ _).mp hrun
  rw [← hres]
  exact ⟨rfl, rfl, e', rfl⟩

/-- C8: the requested field list is the start and stop times followed, for
each of the nine wavelengths in order, by the X-offset, Y-offset, image
scale and instrument rotation fields — 38 named columns. -/
theorem needed_keys_fields :
    NEEDED_KEYS =
      ["T_START", "T_STOP",
       "A_094_X0", "A_094_Y0", "A_094_IMSCALE", "A_094_INSTROT",
       "A_171_X0", "A_171_Y0", "A_171_IMSCALE", "A_171_INSTROT",
       "A_193_X0", "A_193_Y0", "A_193_IMSCALE", "A_193_INSTROT",
       "A_211_X0", "A_211_Y0", "A_211_IMSCALE", "A_211_INSTROT",
       "A_304_X0", "A_304_Y0", "A_304_IMSCALE", "A_304_INSTROT",
       "A_335_X0", "A_335_Y0", "A_335_IMSCALE", "A_335_INSTROT",
       "A_1600_X0", "A_1600_Y0", "A_1600_IMSCALE", "A_1600_INSTROT",
       "A_1700_X0", "A_1700_Y0", "A_1700_IMSCALE", "A_1700_INSTROT",
       "A_4500_X0", "A_4500_Y0", "A_4500_IMSCALE", "A_4500_INSTROT"] ∧
    NEEDED_KEYS.length = 38 :=
  ⟨by rfl, by rfl⟩

/-- C9: on the same partition, when every window's query succeeds with a
non-empty table, the sequential run and a parallel run (any worker count
above one, any completion order) produce identical outcomes, in particular
identical CSV file contents. -/
theorem seq_parallel_same_output {oracle : Oracle} {end_date : Timestamp}
    {m workers : Int} {order : List Nat} {fuel : Nat}
    {rs : List (Timestamp × Timestamp)}
    (hb : _build_time_ranges fuel START_DATE end_date m = some rs)
    (hperm : order.Perm (List.range rs.length))
    (hw : 1 < workers)
    (hok : ∀ r ∈ rs, QueryOk oracle r) :
    get_and_save_pointing_table oracle end_date m 1 order fuel =
      get_and_save_pointing_table oracle end_date m workers order fuel := by
  rw [run_success_char 1 hb hperm hok,
    run_success_char workers hb hperm hok]

/-- C10: when the start is not before the end the partition is empty and
both strategies complete without error, truncating the output file to an
empty file with neither header nor rows. -/
theorem run_empty_span (oracle : Oracle) (end_date : Timestamp) (m workers : Int)
    (order : List Nat) (fuel : Nat) (h : ¬ Timestamp.lt START_DATE end_date) :
    get_and_save_pointing_table oracle end_date m workers order fuel =
      some { fileOpened := true, fileLines := [], error := none } := by
  simp only [get_and_save_pointing_table, build_of_not_lt fuel h]
  by_cases hw : workers ≤ 1
  · rw [if_pos hw]
    rfl
  · rw [if_neg hw]
    simp only [List.map_nil, List.length_nil, List.replicate_zero,
      runCollection_empty order]
    rfl

/-- Witness for C3: a parallel (2-worker) run of one window against an
oracle returning two unsorted rows. -/
theorem output_rows_ordered_witness :
    (1 : Int) ≤ 12 ∧
    _build_time_ranges 2 START_DATE E0 12 = some RS0 ∧
    List.Perm [0] (List.range RS0.length) ∧
    get_and_save_pointing_table goodOracle E0 12 2 [0] 2 = some GOOD_RES ∧
    GOOD_RES.error = none ∧
    (GOOD_RES.fileLines = catChunks (RS0.map (queryDf goodOracle)) false ∧
     (∀ r ∈ RS0, List.Sorted rowLe (queryDf goodOracle r).rows) ∧
     RS0.Pairwise (fun w w' => Timestamp.lt w.1 w'.1) ∧
     (∀ (order' : List Nat) (res' : RunResult), order'.Perm (List.range RS0.length) →
       get_and_save_pointing_table goodOracle E0 12 2 order' 2 = some res' →
       res'.fileLines = GOOD_RES.fileLines)) :=
  ⟨by norm_num, by decide, by decide, by decide, rfl,
    @output_rows_ordered goodOracle E0 12 2 [0] 2 GOOD_RES RS0
      (by norm_num) (by decide) (by decide) (by decide) rfl⟩

/-- Witness for C4: a sequential run whose only window's query raises. -/
theorem run_failure_wrapped_witness :
    _build_time_ranges 2 START_DATE E0 12 = some RS0 ∧
    List.Perm [0] (List.range RS0.length) ∧
    (∃ r ∈ RS0, ∃ e, failOracle r NEEDED_KEYS = Except.error e) ∧
    get_and_save_pointing_table failOracle E0 12 1 [0] 2 = some SEQFAIL_RES ∧
    (∃ cause, SEQFAIL_RES.error = some (PyExc.osError
      ("Unable to create the JSOC table.\nError message: " ++ cause.message) cause)) :=
  ⟨by decide, by decide, ⟨(START_DATE, E0), by decide, { info := "boom" }, rfl⟩, by decide,
    @run_failure_wrapped failOracle E0 12 1 [0] 2 SEQFAIL_RES RS0 (by decide) (by decide)
      ⟨(START_DATE, E0), by decide, { info := "boom" }, rfl⟩ (by decide)⟩

/-- Witness for C5: an oracle that succeeds with zero rows. -/
theorem empty_result_error_distinct_witness :
    _query_range emptyOracle START_DATE E0 NEEDED_KEYS =
      Except.error (PyExc.valueError (emptyMsg START_DATE E0)) :=
  (empty_result_error_distinct emptyOracle START_DATE E0).1
    { columns := NEEDED_KEYS, rows := [] } rfl rfl

/-- Witness for C6: a sequential one-window run against the two-row oracle. -/
theorem header_written_once_witness :
    _build_time_ranges 2 START_DATE E0 12 = some [(START_DATE, E0)] ∧
    List.Perm [0] (List.range [(START_DATE, E0)].length) ∧
    get_and_save_pointing_table goodOracle E0 12 1 [0] 2 = some GOOD_RES ∧
    GOOD_RES.error = none ∧
    (∃ rest, GOOD_RES.fileLines =
        CsvLine.header (queryDf goodOracle (START_DATE, E0)).columns :: rest ∧
      rest.countP isHeaderLine = 0 ∧
      GOOD_RES.fileLines.countP isHeaderLine = 1) :=
  ⟨by decide, by decide, by decide, rfl,
    @header_written_once goodOracle E0 12 1 [0] 2 GOOD_RES (START_DATE, E0) []
      (by decide) (by decide) (by decide) rfl⟩

/-- Witness for C7: a 2-worker run whose only window's query raises. -/
theorem parallel_failure_no_write_witness :
    _build_time_ranges 2 START_DATE E0 12 = some RS0 ∧
    List.Perm [0] (List.range RS0.length) ∧ (1 : Int) < 2 ∧
    (∃ r ∈ RS0, ∃ e, failOracle r NEEDED_KEYS = Except.error e) ∧
    get_and_save_pointing_table failOracle E0 12 2 [0] 2 = some PARFAIL_RES ∧
    (PARFAIL_RES.fileOpened = false ∧ PARFAIL_RES.fileLines = [] ∧
      ∃ cause, PARFAIL_RES.error = some (wrapOSError cause)) :=
  ⟨by decide, by decide, by norm_num,
    ⟨(START_DATE, E0), by decide, { info := "boom" }, rfl⟩, by decide,
    @parallel_failure_no_write failOracle E0 12 2 [0] 2 PARFAIL_RES RS0
      (by decide) (by decide) (by norm_num)
      ⟨(START_DATE, E0), by decide, { info := "boom" }, rfl⟩ (by decide)⟩

/-- Witness for C9: sequential and 2-worker runs coincide on the one-window
partition with the two-row oracle. -/
theorem seq_parallel_same_output_witness :
    _build_time_ranges 2 START_DATE E0 12 = some RS0 ∧
    List.Perm [0] (List.range RS0.length) ∧ (1 : Int) < 2 ∧
    (∀ r ∈ RS0, QueryOk goodOracle r) ∧
    get_and_save_pointing_table goodOracle E0 12 1 [0] 2 =
      get_and_save_pointing_table goodOracle E0 12 2 [0] 2 := by
  have hok : ∀ r ∈ RS0, QueryOk goodOracle r := by
    intro r hr
    exact ⟨_, rfl, by decide⟩
  exact ⟨by decide, by decide, by norm_num, hok,
    @seq_parallel_same_output goodOracle E0 12 2 [0] 2 RS0
      (by decide) (by decide) (by norm_num) hok⟩

/-- Witness for C10: an end boundary lying before the hard-coded start. -/
theorem run_empty_span_witness :
    ¬ Timestamp.lt START_DATE E_PAST ∧
    get_and_save_pointing_table goodOracle E_PAST 12 4 [] 0 =
      some { fileOpened := true, fileLines := [], error := none } :=
  ⟨by decide, run_empty_span goodOracle E_PAST 12 4 [] 0 (by decide)⟩
